import Mathlib

/-!
Shallow embedding of the recommendation core of `recommend_songs.py`
(Kerkliedjie-aanbevelings).

Modelling conventions:
- A Python dict record `{filename, lyrics}` with possibly missing keys is a
  structure of `Option` fields; `d.get(key, default)` is `Option.getD`.
- Embedding vectors are lists of rationals (floats are rationals); the model
  object is a structure carrying its `encode` function.
- The sklearn cosine kernel is float arithmetic with a square root, which has
  no exact computable embedding, so the ranking pipeline takes the pairwise
  similarity kernel as an explicit function parameter (the ranking claims hold
  for every kernel); the mathematical function sklearn computes is modelled
  separately over the reals as `cosine_similarity_pair`.
- `np.argsort` with its default kind carries no stability guarantee in
  general (introsort only degenerates to stable insertion sort below its
  small-array cutoff), so the embedding picks one conforming output, the
  stable ascending argsort; it matches numpy exactly on the short concrete
  arrays used here, and no theorem below derives a tie-order guarantee from
  this choice: the ordering theorem for C1 is proved for every
  value-ascending index list, whatever its tie order.
- `@st.cache_resource` on `get_song_embeddings` memoizes on the hashable
  argument `song_texts` (the underscore argument `_model` is excluded from the
  key) and caches whatever the body returns; this is modelled by explicit
  cache-state passing plus a counter of embedding-provider calls.
- Python `round(x, 3)` is modelled as rounding half up at three decimals; no
  claim below depends on the tie direction of rounding.
-/

/-- A song record as loaded from JSON: a dict that may lack either key. -/
structure SongRecord where
  filename : Option String
  lyrics : Option (List String)
deriving DecidableEq, Repr

instance : Inhabited SongRecord := ⟨⟨none, none⟩⟩

/-- A recommendation as built by `get_recommendations_fast` (lines 166-170). -/
structure Recommendation where
  filename : String
  lyrics : List String
  score : ℚ
deriving DecidableEq, Repr

/-- The embedding model: only its `encode` capability is visible to the core. -/
structure Model where
  encode : String → List ℚ

/-- Counts of calls to the embedding provider: `batch` counts corpus
batch-embed calls (line 112), `single` counts single-query encodes (line 147). -/
structure Calls where
  batch : ℕ
  single : ℕ
deriving DecidableEq, Repr

/-- The `st.cache_resource` store backing `get_song_embeddings`, keyed on
`song_texts` only (the `_model` argument is excluded from the key). The cached
value is whatever the body returned, including the degenerate `None`. -/
structure CacheState where
  entries : List (List String × Option (List (List ℚ)))
deriving DecidableEq, Repr

/-- A fresh session: empty cache. -/
def CacheState.init : CacheState := ⟨[]⟩

/-- Line 98: `" ".join(song.get("lyrics", []))`. -/
def joinLyrics (s : SongRecord) : String :=
  String.intercalate " " (s.lyrics.getD [])

/-- Python truthiness of `t.strip()`: stripping removes exactly the leading and
trailing whitespace, so the stripped text is nonempty iff some character of `t`
is not whitespace. -/
def strippedNonempty (t : String) : Bool :=
  t.data.any (fun c => !c.isWhitespace)

/-- Line 99 guard, `if lyrics_text.strip():`: the record survives iff the
joined text is nonempty after trimming. -/
def keepSong (s : SongRecord) : Bool :=
  strippedNonempty (joinLyrics s)

/-- Line 101: `song.get("filename", "Unknown")`. -/
def nameOf (s : SongRecord) : String :=
  s.filename.getD "Unknown"

/-- Lines 90-103, `preprocess_songs`: returns `(song_texts, song_names)`. -/
def preprocess_songs : List SongRecord → List String × List String
  | [] => ([], [])
  | song :: rest =>
    let lyrics_text := joinLyrics song
    let pre := preprocess_songs rest
    if strippedNonempty lyrics_text then
      (lyrics_text :: pre.1, nameOf song :: pre.2)
    else
      pre

/-- The surviving records, in input order. -/
def survivors (songs : List SongRecord) : List SongRecord :=
  songs.filter keepSong

/-- Lines 105-113, `get_song_embeddings` under `@st.cache_resource`: on a key
hit the cached value is returned with no provider call; on a miss the body runs
(embedding the batch iff the model is present and the text list nonempty) and
its result is cached under the key. Returns (value, new cache, batch calls). -/
def get_song_embeddings (song_texts : List String) (m : Option Model)
    (c : CacheState) : Option (List (List ℚ)) × CacheState × ℕ :=
  match c.entries.lookup song_texts with
  | some v => (v, c, 0)
  | none =>
    match m with
    | none => (none, ⟨(song_texts, none) :: c.entries⟩, 0)
    | some model =>
      if song_texts.isEmpty then
        (none, ⟨(song_texts, none) :: c.entries⟩, 0)
      else
        let v := song_texts.map model.encode
        (some v, ⟨(song_texts, some v) :: c.entries⟩, 1)

/-- Python list slicing `xs[:k]`: for `k ≥ 0` the first `k` items, for `k < 0`
all but the last `-k` items (empty when `-k` exceeds the length). -/
def pySliceTo (k : ℤ) (xs : List α) : List α :=
  if 0 ≤ k then xs.take k.toNat
  else xs.take (xs.length - (-k).toNat)

/-- The order `np.argsort` sorts indices by: ascending value, ties by
ascending index (the stable model of argsort). -/
def argsortKey (sims : List ℚ) (i j : ℕ) : Prop :=
  sims.getD i 0 < sims.getD j 0 ∨ (sims.getD i 0 = sims.getD j 0 ∧ i ≤ j)

instance (sims : List ℚ) : DecidableRel (argsortKey sims) := fun i j => by
  unfold argsortKey; infer_instance

instance (sims : List ℚ) : IsTotal ℕ (argsortKey sims) := by
  constructor
  intro i j
  unfold argsortKey
  rcases lt_trichotomy (sims.getD i 0) (sims.getD j 0) with h | h | h
  · exact Or.inl (Or.inl h)
  · rcases Nat.le_total i j with hij | hij
    · exact Or.inl (Or.inr ⟨h, hij⟩)
    · exact Or.inr (Or.inr ⟨h.symm, hij⟩)
  · exact Or.inr (Or.inl h)

instance (sims : List ℚ) : IsTrans ℕ (argsortKey sims) := by
  constructor
  intro a b c hab hbc
  unfold argsortKey at *
  rcases hab with h1 | ⟨h1, h1i⟩
  · rcases hbc with h2 | ⟨h2, _⟩
    · exact Or.inl (h1.trans h2)
    · exact Or.inl (h2 ▸ h1)
  · rcases hbc with h2 | ⟨h2, h2i⟩
    · exact Or.inl (h1 ▸ h2)
    · exact Or.inr ⟨h1.trans h2, h1i.trans h2i⟩

/-- Line 156 first half, `np.argsort(similarities)`: one conforming argsort
output, a value-ascending permutation of the row indices. The default numpy
kind is not stable beyond its small-array insertion-sort regime, so the tie
order of this stable model (which numpy does produce on the short arrays of
the concrete inputs below) is never relied on as a program guarantee. -/
def argsort (sims : List ℚ) : List ℕ :=
  (List.range sims.length).insertionSort (argsortKey sims)

/-- Line 156, `np.argsort(similarities)[::-1][:top_k]`. -/
def top_indices (sims : List ℚ) (top_k : ℤ) : List ℕ :=
  pySliceTo top_k (argsort sims).reverse

/-- Line 169, `round(similarity_score, 3)`, modelled as half-up rounding at
three decimals. -/
def roundTo3 (q : ℚ) : ℚ :=
  (round (q * 1000) : ℤ) / 1000

/-- Line 164: `next((s for s in songs if s.get("filename") == song_name), None)`.
A record lacking the filename key compares unequal to every string. -/
def findByFilename (songs : List SongRecord) (name : String) : Option SongRecord :=
  songs.find? (fun s => s.filename == some name)

/-- Lines 159-170, the body of the emission loop for one ranked index: look
the name up in the corpus by filename and build the recommendation; when the
lookup fails the index contributes nothing. -/
def emitRec (songs : List SongRecord) (song_names : List String)
    (sims : List ℚ) (idx : ℕ) : Option Recommendation :=
  match findByFilename songs (song_names.getD idx "") with
  | some song_data =>
    some { filename := song_names.getD idx ""
           lyrics := song_data.lyrics.getD []
           score := roundTo3 (sims.getD idx 0) }
  | none => none

/-- Lines 131-172, `get_recommendations_fast`, with the pairwise similarity
kernel `cos` as a parameter and the `st.cache_resource` store threaded through.
Returns (recommendations, new cache, provider call counts). -/
def get_recommendations_fast (cos : List ℚ → List ℚ → ℚ) (sermon_text : String)
    (songs : List SongRecord) (m : Option Model) (top_k : ℤ) (c : CacheState) :
    List Recommendation × CacheState × Calls :=
  match m with
  | none => ([], c, ⟨0, 0⟩)
  | some model =>
    if songs.isEmpty then ([], c, ⟨0, 0⟩)
    else
      let pre := preprocess_songs songs
      if pre.1.isEmpty then ([], c, ⟨0, 0⟩)
      else
        match get_song_embeddings pre.1 (some model) c with
        | (none, c1, nb) => ([], c1, ⟨nb, 0⟩)
        | (some song_embeddings, c1, nb) =>
          let sermon_embedding := model.encode sermon_text
          let similarities := song_embeddings.map (fun v => cos sermon_embedding v)
          ((top_indices similarities top_k).filterMap
              (emitRec songs pre.2 similarities),
            c1, ⟨nb, 1⟩)

/-- The similarity row a fresh-session run computes: `cosine_similarity` of
the query embedding against the embedding of every prepared text (line 150). -/
def recSims (cos : List ℚ → List ℚ → ℚ) (q : String) (songs : List SongRecord)
    (m : Model) : List ℚ :=
  ((preprocess_songs songs).1.map m.encode).map (fun v => cos (m.encode q) v)

/-- The outcomes the main page can show for one submitted request. -/
inductive MainOutcome where
  | loadError
  | warnEmptyQuery
  | noRecsError
  | recs (rs : List Recommendation)
deriving DecidableEq, Repr

/-- Lines 215-242, the button handler: an empty-after-trim query
(`if not sermon_text or not sermon_text.strip():`) is rejected with a warning
before any work; otherwise `get_recommendations_fast` runs on the stripped
query and an empty result is reported as an error. -/
def handle_submit (cos : List ℚ → List ℚ → ℚ) (songs_data : List SongRecord)
    (m : Model) (sermon_text : String) (top_k : ℤ) (c : CacheState) :
    MainOutcome × CacheState × Calls :=
  if !strippedNonempty sermon_text then (.warnEmptyQuery, c, ⟨0, 0⟩)
  else
    let r := get_recommendations_fast cos sermon_text.trim songs_data (some m) top_k c
    if r.1 = [] then (.noRecsError, r.2.1, r.2.2)
    else (.recs r.1, r.2.1, r.2.2)

/-- Lines 179-243, `main`: failed data or model loading is reported as a load
error before the recommendation operation can run; otherwise the corpus
embeddings are preloaded and the submitted query is handled. -/
def main_flow (cos : List ℚ → List ℚ → ℚ) (songs_data : List SongRecord)
    (model : Option Model) (sermon_text : String) (top_k : ℤ) (c0 : CacheState) :
    MainOutcome × CacheState × Calls :=
  match model with
  | none => (.loadError, c0, ⟨0, 0⟩)
  | some m =>
    if songs_data.isEmpty then (.loadError, c0, ⟨0, 0⟩)
    else
      let pre := preprocess_songs songs_data
      let e := get_song_embeddings pre.1 (some m) c0
      let r := handle_submit cos songs_data m sermon_text top_k e.2.1
      (r.1, r.2.1, ⟨e.2.2 + r.2.2.batch, r.2.2.single⟩)

/-- Dot product of two float vectors (modelled over the reals). -/
def dotR (u v : List ℝ) : ℝ :=
  (List.zipWith (fun a b => a * b) u v).sum

/-- Euclidean norm as sklearn computes it. -/
noncomputable def sknorm (u : List ℝ) : ℝ :=
  Real.sqrt (dotR u u)

/-- The norm sklearn divides by: `normalize` replaces a zero row norm by 1. -/
noncomputable def sknormSafe (u : List ℝ) : ℝ :=
  if sknorm u = 0 then 1 else sknorm u

/-- One entry of `sklearn.metrics.pairwise.cosine_similarity` (line 150):
the dot product of the two rows after sklearn row normalization, in which a
zero-norm row is left unscaled rather than raising. -/
noncomputable def cosine_similarity_pair (u v : List ℝ) : ℝ :=
  dotR u v / (sknormSafe u * sknormSafe v)

/-! ## Basic structural lemmas -/

theorem preprocess_songs_eq (songs : List SongRecord) :
    preprocess_songs songs =
      ((survivors songs).map joinLyrics, (survivors songs).map nameOf) := by
  induction songs with
  | nil => rfl
  | cons s rest ih =>
    cases hk : keepSong s with
    | true =>
      have hs : strippedNonempty (joinLyrics s) = true := hk
      simp [preprocess_songs, survivors, List.filter_cons, hk, hs, ih]
    | false =>
      have hs : strippedNonempty (joinLyrics s) = false := hk
      simp [preprocess_songs, survivors, List.filter_cons, hk, hs, ih]

theorem argsort_perm (sims : List ℚ) :
    List.Perm (argsort sims) (List.range sims.length) :=
  List.perm_insertionSort _ _

theorem argsort_sorted (sims : List ℚ) :
    List.Sorted (argsortKey sims) (argsort sims) :=
  List.sorted_insertionSort _ _

theorem argsort_length (sims : List ℚ) : (argsort sims).length = sims.length := by
  simpa using (argsort_perm sims).length_eq

theorem mem_argsort_lt {sims : List ℚ} {i : ℕ} (h : i ∈ argsort sims) :
    i < sims.length := by
  simpa [List.mem_range] using (argsort_perm sims).mem_iff.mp h

theorem top_indices_sublist (sims : List ℚ) (k : ℤ) :
    List.Sublist (top_indices sims k) ((argsort sims).reverse) := by
  unfold top_indices pySliceTo
  split <;> exact List.take_sublist _ _

theorem mem_top_indices_lt {sims : List ℚ} {k : ℤ} {i : ℕ}
    (h : i ∈ top_indices sims k) : i < sims.length :=
  mem_argsort_lt (List.mem_reverse.mp ((top_indices_sublist sims k).subset h))

theorem top_indices_length_of_nonneg (sims : List ℚ) {k : ℤ} (hk : 0 ≤ k) :
    (top_indices sims k).length = min k.toNat sims.length := by
  unfold top_indices pySliceTo
  rw [if_pos hk]
  simp [argsort_length]

theorem top_indices_length_of_neg (sims : List ℚ) {k : ℤ} (hk : k < 0) :
    (top_indices sims k).length = sims.length - (-k).toNat := by
  unfold top_indices pySliceTo
  rw [if_neg (by omega)]
  simp [argsort_length]

theorem roundTo3_mono {a b : ℚ} (h : a ≤ b) : roundTo3 a ≤ roundTo3 b := by
  unfold roundTo3
  have h1 : a * 1000 ≤ b * 1000 := by
    exact mul_le_mul_of_nonneg_right h (by norm_num)
  have h2 : round (a * 1000) ≤ round (b * 1000) := by
    rw [round_eq, round_eq]
    exact Int.floor_mono (by linarith)
  have h3 : ((round (a * 1000) : ℤ) : ℚ) ≤ ((round (b * 1000) : ℤ) : ℚ) := by
    exact_mod_cast h2
  exact div_le_div_of_nonneg_right h3 (by norm_num) |>.trans_eq rfl

theorem emitRec_eq_some {songs : List SongRecord} {song_names : List String}
    {sims : List ℚ} {idx : ℕ} {r : Recommendation}
    (h : emitRec songs song_names sims idx = some r) :
    ∃ d, findByFilename songs (song_names.getD idx "") = some d
      ∧ r = { filename := song_names.getD idx ""
              lyrics := d.lyrics.getD []
              score := roundTo3 (sims.getD idx 0) } := by
  unfold emitRec at h
  cases hf : findByFilename songs (song_names.getD idx "") with
  | none => rw [hf] at h; cases h
  | some d =>
    rw [hf] at h
    exact ⟨d, rfl, (Option.some_injective _ h).symm⟩

theorem get_song_embeddings_init {texts : List String} (m : Model)
    (h : texts.isEmpty = false) :
    get_song_embeddings texts (some m) CacheState.init
      = (some (texts.map m.encode),
          ⟨[(texts, some (texts.map m.encode))]⟩, 1) := by
  unfold get_song_embeddings
  simp [CacheState.init, List.lookup, h]

theorem getD_mem_of_lt {l : List α} {i : ℕ} (d : α) (h : i < l.length) :
    l.getD i d ∈ l := by
  rw [List.getD_eq_getElem?_getD, List.getElem?_eq_getElem h]
  exact List.getElem_mem h

theorem recSims_length (cos : List ℚ → List ℚ → ℚ) (q : String)
    (songs : List SongRecord) (m : Model) :
    (recSims cos q songs m).length = (survivors songs).length := by
  simp [recSims, preprocess_songs_eq]

theorem names_length (songs : List SongRecord) :
    (preprocess_songs songs).2.length = (survivors songs).length := by
  simp [preprocess_songs_eq]

theorem names_getD (songs : List SongRecord) {i : ℕ}
    (h : i < (survivors songs).length) :
    (preprocess_songs songs).2.getD i ""
      = nameOf ((survivors songs).getD i default) := by
  rw [preprocess_songs_eq]
  simp only [List.getD_eq_getElem?_getD, List.getElem?_map,
    List.getElem?_eq_getElem h]
  rfl

/-- In a fresh session the recommendation list is the ranked index list of the
similarity row, each index emitted through the corpus filename lookup. -/
theorem get_rec_fst_init (cos : List ℚ → List ℚ → ℚ) (q : String)
    (songs : List SongRecord) (m : Model) (k : ℤ) :
    (get_recommendations_fast cos q songs (some m) k CacheState.init).1
      = (top_indices (recSims cos q songs m) k).filterMap
          (emitRec songs (preprocess_songs songs).2 (recSims cos q songs m)) := by
  by_cases h1 : songs.isEmpty
  · have hsnil : songs = [] := List.isEmpty_iff.mp h1
    subst hsnil
    simp [get_recommendations_fast, recSims, preprocess_songs, top_indices,
      pySliceTo, argsort]
  · by_cases h2 : (preprocess_songs songs).1.isEmpty
    · have h3 : (recSims cos q songs m) = [] := by
        simp [recSims, List.isEmpty_iff.mp h2]
      simp [get_recommendations_fast, h1, h2, h3, top_indices, pySliceTo, argsort]
    · have h2f : (preprocess_songs songs).1.isEmpty = false := by
        simpa using h2
      simp [get_recommendations_fast, h1, h2f,
        get_song_embeddings_init m h2f, recSims]

/-! ## Concrete fixtures for counterexamples and witnesses -/

/-- A similarity kernel that scores every pair 0 (a perfect tie). -/
def kernelZero : List ℚ → List ℚ → ℚ := fun _ _ => 0

/-- A similarity kernel that reads the score off the corpus vector. -/
def kernelHead : List ℚ → List ℚ → ℚ := fun _ v => v.headD 0

/-- A model embedding every text to the same vector. -/
def modelConst : Model := ⟨fun _ => [1]⟩

/-- A model distinguishing the two test lyrics. -/
def modelXY : Model := ⟨fun t => if t = "y" then [1] else [0]⟩

/-- Two records with distinct filenames and distinct nonempty lyrics. -/
def corpusAB : List SongRecord :=
  [⟨some "A", some ["x"]⟩, ⟨some "B", some ["y"]⟩]

/-- Two distinct records sharing the filename "A". -/
def corpusDupName : List SongRecord :=
  [⟨some "A", some ["x"]⟩, ⟨some "A", some ["y"]⟩]

/-- A whitespace-only record followed by a surviving record, same filename. -/
def corpusBlankFirst : List SongRecord :=
  [⟨some "A", some [" "]⟩, ⟨some "A", some ["x"]⟩]

/-- A whitespace-only record whose filename differs from every surviving name. -/
def corpusBlankOther : List SongRecord :=
  [⟨some "E", some [" "]⟩, ⟨some "A", some ["x"]⟩]

/-! ## Claim C1 -/

/-- Claim C1 as stated is false: with a tie in similarity scores, the entry
with the LOWER original corpus index comes last, not first. Concretely, both
similarities are 0, yet the record at corpus index 1 (filename "B") is emitted
before the record at corpus index 0 (filename "A"). -/
theorem c1_counterexample :
    recSims kernelZero "preek" corpusAB modelConst = [0, 0]
    ∧ top_indices (recSims kernelZero "preek" corpusAB modelConst) 5 = [1, 0]
    ∧ (get_recommendations_fast kernelZero "preek" corpusAB
        (some modelConst) 5 CacheState.init).1
      = [{ filename := "B", lyrics := ["y"], score := roundTo3 0 },
         { filename := "A", lyrics := ["x"], score := roundTo3 0 }] :=
  ⟨rfl, rfl, rfl⟩

/-- Claim C1 (amended): the returned sequence is ordered by descending
(non-increasing) similarity score, and this ordering is independent of how
argsort breaks ties: it holds for EVERY value-ascending index list np.argsort
may return, whatever its tie order (the default numpy sort is not stable in
general, so no tie rule is a program guarantee); the lower-original-index tie
rule of the claim is false, as the counterexample shows with the stable
small-array regime emitting the HIGHER original index first. -/
theorem c1_order_amended (cos : List ℚ → List ℚ → ℚ) (q : String)
    (songs : List SongRecord) (m : Model) (k : ℤ) :
    (∀ p : List ℕ,
      List.Sorted (fun i j => (recSims cos q songs m).getD i 0
          ≤ (recSims cos q songs m).getD j 0) p →
      ((pySliceTo k p.reverse).filterMap
          (emitRec songs (preprocess_songs songs).2 (recSims cos q songs m))).Pairwise
        (fun a b => b.score ≤ a.score))
    ∧ ((get_recommendations_fast cos q songs (some m) k CacheState.init).1).Pairwise
        (fun a b => b.score ≤ a.score) := by
  have key : ∀ p : List ℕ,
      List.Sorted (fun i j => (recSims cos q songs m).getD i 0
          ≤ (recSims cos q songs m).getD j 0) p →
      ((pySliceTo k p.reverse).filterMap
          (emitRec songs (preprocess_songs songs).2 (recSims cos q songs m))).Pairwise
        (fun a b => b.score ≤ a.score) := by
    intro p hp
    have hrev : p.reverse.Pairwise
        (fun i j => (recSims cos q songs m).getD j 0
          ≤ (recSims cos q songs m).getD i 0) :=
      List.pairwise_reverse.mpr hp
    have hsl : List.Sublist (pySliceTo k p.reverse) p.reverse := by
      unfold pySliceTo
      split <;> exact List.take_sublist _ _
    refine (hrev.sublist hsl).filterMap _ ?_
    intro i j hij a ha b hb
    rw [Option.mem_def] at ha hb
    obtain ⟨da, -, rfl⟩ := emitRec_eq_some ha
    obtain ⟨db, -, rfl⟩ := emitRec_eq_some hb
    simpa using roundTo3_mono hij
  refine ⟨key, ?_⟩
  rw [get_rec_fst_init]
  have hsorted : List.Sorted (fun i j => (recSims cos q songs m).getD i 0
      ≤ (recSims cos q songs m).getD j 0) (argsort (recSims cos q songs m)) := by
    refine (argsort_sorted (recSims cos q songs m)).imp ?_
    intro a b hab
    rcases hab with h | ⟨h, -⟩
    · exact h.le
    · exact h.le
  exact key (argsort (recSims cos q songs m)) hsorted

/-- Witness for the amended C1: the concrete two-record tie, instantiated at
the value-ascending index list [1, 0]. -/
theorem c1_order_amended_witness :
    List.Sorted (fun i j => (recSims kernelZero "preek" corpusAB modelConst).getD i 0
        ≤ (recSims kernelZero "preek" corpusAB modelConst).getD j 0) [1, 0]
    ∧ ((pySliceTo 5 ([1, 0] : List ℕ).reverse).filterMap
        (emitRec corpusAB (preprocess_songs corpusAB).2
          (recSims kernelZero "preek" corpusAB modelConst))).Pairwise
        (fun a b => b.score ≤ a.score) :=
  ⟨by decide,
    (c1_order_amended kernelZero "preek" corpusAB modelConst 5).1 [1, 0] (by decide)⟩

/-! ## Claim C3 -/

/-- Claim C3 as stated is false for negative topK: Python slicing makes
`top_k = -1` return all but the last ranked entry, not an empty sequence. -/
theorem c3_counterexample :
    (get_recommendations_fast kernelZero "preek" corpusAB
        (some modelConst) (-1) CacheState.init).1
      = [{ filename := "B", lyrics := ["y"], score := roundTo3 0 }]
    ∧ ((get_recommendations_fast kernelZero "preek" corpusAB
        (some modelConst) (-1) CacheState.init).1).length = 1 :=
  ⟨rfl, rfl⟩

/-- Claim C3 (amended): for `topK ≥ 0` the result length is at most
`min topK (number of surviving records)`, and `topK = 0` yields the empty
sequence; but a negative `topK` follows Python slice semantics, ranking
`max(n - |topK|, 0)` entries rather than zero. -/
theorem c3_length_amended (cos : List ℚ → List ℚ → ℚ) (q : String)
    (songs : List SongRecord) (m : Model) :
    (∀ k : ℤ, 0 ≤ k →
      ((get_recommendations_fast cos q songs (some m) k CacheState.init).1).length
        ≤ min k.toNat (survivors songs).length)
    ∧ ((get_recommendations_fast cos q songs (some m) 0 CacheState.init).1 = [])
    ∧ (∀ k : ℤ, k < 0 →
      (top_indices (recSims cos q songs m) k).length
        = (survivors songs).length - (-k).toNat) := by
  refine ⟨?_, ?_, ?_⟩
  · intro k hk
    rw [get_rec_fst_init]
    calc (List.filterMap (emitRec songs (preprocess_songs songs).2
            (recSims cos q songs m)) (top_indices (recSims cos q songs m) k)).length
        ≤ (top_indices (recSims cos q songs m) k).length :=
          List.length_filterMap_le _ _
      _ = min k.toNat (recSims cos q songs m).length :=
          top_indices_length_of_nonneg _ hk
      _ = min k.toNat (survivors songs).length := by rw [recSims_length]
  · rw [get_rec_fst_init]
    have h0 : top_indices (recSims cos q songs m) 0 = [] := by
      unfold top_indices pySliceTo
      simp
    rw [h0]
    rfl
  · intro k hk
    rw [top_indices_length_of_neg _ hk, recSims_length]

/-- Witness for the amended C3 at a concrete input: `topK = 5` with two
surviving records. -/
theorem c3_length_amended_witness :
    (0 : ℤ) ≤ 5
    ∧ ((get_recommendations_fast kernelZero "preek" corpusAB
          (some modelConst) 5 CacheState.init).1).length
        ≤ min (5 : ℤ).toNat (survivors corpusAB).length :=
  ⟨by decide,
    (c3_length_amended kernelZero "preek" corpusAB modelConst).1 5 (by decide)⟩

/-! ## Claim C5 -/

/-- Claim C5: preprocessing is the pure filter-map pipeline: it joins each
lyrics sequence with single spaces, keeps exactly the records whose joined
text is nonempty after stripping, preserves their relative order, and returns
parallel text and name sequences of equal length. -/
theorem c5_preprocess_filter (songs : List SongRecord) :
    preprocess_songs songs
      = ((survivors songs).map joinLyrics, (survivors songs).map nameOf)
    ∧ (preprocess_songs songs).1.length = (preprocess_songs songs).2.length := by
  refine ⟨preprocess_songs_eq songs, ?_⟩
  rw [preprocess_songs_eq]
  simp

/-! ## Claim C2 -/

theorem findByFilename_unique {songs : List SongRecord} {s : SongRecord} {f : String}
    (hmem : s ∈ songs) (hf : s.filename = some f)
    (hnd : (songs.map SongRecord.filename).Nodup) :
    findByFilename songs f = some s := by
  induction songs with
  | nil => cases hmem
  | cons a rest ih =>
    have hnotin := (List.nodup_cons.mp hnd).1
    have hnd2 := (List.nodup_cons.mp hnd).2
    rcases List.mem_cons.mp hmem with rfl | hmem2
    · unfold findByFilename
      exact List.find?_cons_of_pos _ (by simp [hf])
    · have hne : (a.filename == some f) = false := by
        refine beq_eq_false_iff_ne.mpr ?_
        intro he
        exact hnotin (by rw [he, ← hf]; exact List.mem_map_of_mem _ hmem2)
      unfold findByFilename at ih ⊢
      rw [List.find?_cons_of_neg _ (by simp [hne])]
      exact ih hmem2 hnd2

/-- Claim C2 as stated is false when two distinct records share a filename:
the corpus holds two records named "A" with lyrics ["x"] and ["y"]; the
top-ranked entry comes from prepared position 1, produced by the record with
lyrics ["y"] (corpus index 1), yet the emitted recommendation carries the
lyrics ["x"] of corpus index 0, because the code maps a ranked position back
through a first-match filename lookup instead of the position itself. -/
theorem c2_counterexample :
    (preprocess_songs corpusDupName).1 = ["x", "y"]
    ∧ top_indices (recSims kernelHead "preek" corpusDupName modelXY) 5 = [1, 0]
    ∧ (corpusDupName.getD 1 default).lyrics = some ["y"]
    ∧ (get_recommendations_fast kernelHead "preek" corpusDupName
        (some modelXY) 5 CacheState.init).1
      = [{ filename := "A", lyrics := ["x"], score := roundTo3 1 },
         { filename := "A", lyrics := ["x"], score := roundTo3 0 }] :=
  ⟨rfl, rfl, rfl, rfl⟩

/-- Claim C2 (amended): when every corpus record has a filename and the
filenames are pairwise distinct, ranked position `i` maps back to exactly the
surviving record that produced `texts[i]`, and the emitted recommendation
carries the full lyrics of that record; with duplicate filenames the lookup instead
returns the first record bearing the name. -/
theorem c2_mapping_amended (cos : List ℚ → List ℚ → ℚ) (q : String)
    (songs : List SongRecord) (m : Model) (k : ℤ)
    (h1 : ∀ s ∈ songs, (SongRecord.filename s).isSome = true)
    (h2 : (songs.map SongRecord.filename).Nodup) :
    (get_recommendations_fast cos q songs (some m) k CacheState.init).1
      = (top_indices (recSims cos q songs m) k).filterMap
          (emitRec songs (preprocess_songs songs).2 (recSims cos q songs m))
    ∧ ∀ i, i < (survivors songs).length →
        emitRec songs (preprocess_songs songs).2 (recSims cos q songs m) i
          = some { filename := nameOf ((survivors songs).getD i default)
                   lyrics := ((survivors songs).getD i default).lyrics.getD []
                   score := roundTo3 ((recSims cos q songs m).getD i 0) } := by
  refine ⟨get_rec_fst_init cos q songs m k, ?_⟩
  intro i hi
  have hmem_surv : (survivors songs).getD i default ∈ survivors songs :=
    getD_mem_of_lt default hi
  have hmem_songs : (survivors songs).getD i default ∈ songs :=
    (List.mem_filter.mp hmem_surv).1
  obtain ⟨f, hf⟩ := Option.isSome_iff_exists.mp (h1 _ hmem_songs)
  have hnames : (preprocess_songs songs).2.getD i ""
      = nameOf ((survivors songs).getD i default) := names_getD songs hi
  have hnamef : nameOf ((survivors songs).getD i default) = f := by
    unfold nameOf
    rw [hf]
    rfl
  unfold emitRec
  rw [hnames, hnamef, findByFilename_unique hmem_songs hf h2]

/-- Witness for the amended C2: the two-record corpus with distinct filenames
"A" and "B" satisfies the hypotheses, and both ranked positions emit the
recommendation built from their own record. -/
theorem c2_mapping_amended_witness :
    (∀ s ∈ corpusAB, (SongRecord.filename s).isSome = true)
    ∧ (corpusAB.map SongRecord.filename).Nodup
    ∧ ((get_recommendations_fast kernelZero "preek" corpusAB
          (some modelConst) 5 CacheState.init).1
        = (top_indices (recSims kernelZero "preek" corpusAB modelConst) 5).filterMap
            (emitRec corpusAB (preprocess_songs corpusAB).2
              (recSims kernelZero "preek" corpusAB modelConst))
      ∧ ∀ i, i < (survivors corpusAB).length →
          emitRec corpusAB (preprocess_songs corpusAB).2
              (recSims kernelZero "preek" corpusAB modelConst) i
            = some { filename := nameOf ((survivors corpusAB).getD i default)
                     lyrics := ((survivors corpusAB).getD i default).lyrics.getD []
                     score := roundTo3
                       ((recSims kernelZero "preek" corpusAB modelConst).getD i 0) }) :=
  ⟨by decide, by decide,
    c2_mapping_amended kernelZero "preek" corpusAB modelConst 5
      (by decide) (by decide)⟩

/-! ## Claim C6 -/

/-- Claim C6 as stated is false: a whitespace-only record that precedes a
surviving record with the same filename never enters the prepared text, yet
its lyrics [" "] are what the returned recommendation carries, because the
filename lookup hits the excluded record first. -/
theorem c6_counterexample :
    keepSong ⟨some "A", some [" "]⟩ = false
    ∧ (preprocess_songs corpusBlankFirst).1 = ["x"]
    ∧ (get_recommendations_fast kernelZero "preek" corpusBlankFirst
        (some modelConst) 5 CacheState.init).1
      = [{ filename := "A", lyrics := [" "], score := roundTo3 0 }] :=
  ⟨by decide, rfl, rfl⟩

/-- Claim C6 (amended): records whose joined lyrics are empty after trimming
never appear in the prepared text; and provided no such excluded record bears
the filename of any surviving record, every returned recommendation carries
the lyrics of a surviving (nonempty) record. -/
theorem c6_blank_amended (cos : List ℚ → List ℚ → ℚ) (q : String)
    (songs : List SongRecord) (m : Model) (k : ℤ)
    (h : ∀ e ∈ songs, keepSong e = false →
      ∀ s ∈ songs, keepSong s = true → e.filename ≠ some (nameOf s)) :
    (∀ t ∈ (preprocess_songs songs).1, ∃ s ∈ songs, keepSong s = true ∧ t = joinLyrics s)
    ∧ ∀ r ∈ (get_recommendations_fast cos q songs (some m) k CacheState.init).1,
        ∃ d ∈ songs, keepSong d = true ∧ r.lyrics = d.lyrics.getD [] := by
  constructor
  · intro t ht
    rw [preprocess_songs_eq] at ht
    obtain ⟨s, hs, rfl⟩ := List.mem_map.mp ht
    exact ⟨s, (List.mem_filter.mp hs).1, (List.mem_filter.mp hs).2, rfl⟩
  · intro r hr
    rw [get_rec_fst_init] at hr
    obtain ⟨idx, hidx, hemit⟩ := List.mem_filterMap.mp hr
    obtain ⟨d, hfind, rfl⟩ := emitRec_eq_some hemit
    have hlt : idx < (survivors songs).length := by
      have h1 := mem_top_indices_lt hidx
      rwa [recSims_length] at h1
    have hfind2 : songs.find?
        (fun s => s.filename == some ((preprocess_songs songs).2.getD idx "")) = some d :=
      hfind
    have hd_mem : d ∈ songs := List.mem_of_find?_eq_some hfind2
    have hd_p0 := List.find?_some hfind2
    have hd_p : (d.filename == some ((preprocess_songs songs).2.getD idx "")) = true :=
      hd_p0
    have hd_f : d.filename = some (nameOf ((survivors songs).getD idx default)) := by
      rw [names_getD songs hlt] at hd_p
      exact eq_of_beq hd_p
    have hs_mem : (survivors songs).getD idx default ∈ survivors songs :=
      getD_mem_of_lt default hlt
    have hs_songs : (survivors songs).getD idx default ∈ songs :=
      (List.mem_filter.mp hs_mem).1
    have hs_keep : keepSong ((survivors songs).getD idx default) = true :=
      (List.mem_filter.mp hs_mem).2
    have hd_keep : keepSong d = true := by
      cases hck : keepSong d with
      | true => rfl
      | false => exact absurd hd_f (h d hd_mem hck _ hs_songs hs_keep)
    exact ⟨d, hd_mem, hd_keep, rfl⟩

/-- Witness for the amended C6: the excluded whitespace-only record is named
"E", no survivor is named "E", so the hypothesis holds and every returned
recommendation carries the lyrics of a surviving record. -/
theorem c6_blank_amended_witness :
    (∀ e ∈ corpusBlankOther, keepSong e = false →
      ∀ s ∈ corpusBlankOther, keepSong s = true → e.filename ≠ some (nameOf s))
    ∧ ((∀ t ∈ (preprocess_songs corpusBlankOther).1,
          ∃ s ∈ corpusBlankOther, keepSong s = true ∧ t = joinLyrics s)
      ∧ ∀ r ∈ (get_recommendations_fast kernelZero "preek" corpusBlankOther
            (some modelConst) 5 CacheState.init).1,
          ∃ d ∈ corpusBlankOther, keepSong d = true ∧ r.lyrics = d.lyrics.getD []) :=
  ⟨by decide,
    c6_blank_amended kernelZero "preek" corpusBlankOther modelConst 5 (by decide)⟩

/-! ## Claim C10 -/

/-- Claim C10: a record lacking the lyrics key is treated as empty lyrics and
excluded; a surviving record lacking the filename key appears in the prepared
names as "Unknown"; and the filename of every emitted recommendation is one of the
prepared names, so a recommendation derived from such a position carries
"Unknown". -/
theorem c10_missing_keys :
    (∀ s : SongRecord, s.lyrics = none → keepSong s = false)
    ∧ (∀ (songs : List SongRecord) (i : ℕ), i < (survivors songs).length →
        ((survivors songs).getD i default).filename = none →
        (preprocess_songs songs).2.getD i "" = "Unknown")
    ∧ (∀ (cos : List ℚ → List ℚ → ℚ) (q : String) (songs : List SongRecord)
        (m : Model) (k : ℤ),
        ∀ r ∈ (get_recommendations_fast cos q songs (some m) k CacheState.init).1,
          r.filename ∈ (preprocess_songs songs).2) := by
  refine ⟨?_, ?_, ?_⟩
  · rintro ⟨fn, ly⟩ hly
    cases ly with
    | none => rfl
    | some l => simp at hly
  · intro songs i hi hf
    rw [names_getD songs hi]
    unfold nameOf
    rw [hf]
    rfl
  · intro cos q songs m k r hr
    rw [get_rec_fst_init] at hr
    obtain ⟨idx, hidx, hemit⟩ := List.mem_filterMap.mp hr
    obtain ⟨d, -, rfl⟩ := emitRec_eq_some hemit
    have hlt : idx < (preprocess_songs songs).2.length := by
      have h1 := mem_top_indices_lt hidx
      rw [recSims_length] at h1
      rwa [names_length]
    exact getD_mem_of_lt "" hlt

/-! ## Claim C7 -/

/-- Claim C7: a query that is empty after stripping is rejected by the entry
point with the empty-query warning before any other work, and zero
embedding-provider calls (batch or single) are made for the request. -/
theorem c7_empty_query (cos : List ℚ → List ℚ → ℚ) (songs_data : List SongRecord)
    (m : Model) (q : String) (k : ℤ) (c : CacheState)
    (h : strippedNonempty q = false) :
    handle_submit cos songs_data m q k c = (.warnEmptyQuery, c, ⟨0, 0⟩) := by
  unfold handle_submit
  rw [h]
  rfl

/-- Witness for C7 at the whitespace-only query. -/
theorem c7_empty_query_witness :
    strippedNonempty "  " = false
    ∧ handle_submit kernelZero corpusAB modelConst "  " 5 CacheState.init
      = (.warnEmptyQuery, CacheState.init, ⟨0, 0⟩) :=
  ⟨by decide,
    c7_empty_query kernelZero corpusAB modelConst "  " 5 CacheState.init (by decide)⟩

/-! ## Claim C8 -/

/-- Claim C8 as stated is false at the operation level: with the model
unavailable the operation returns the very same plain empty value (empty list,
untouched cache, zero calls) that a corpus with no embeddable text produces,
so its immediate caller receives no distinguishing kind. -/
theorem c8_counterexample :
    get_recommendations_fast kernelZero "preek" corpusAB none 5 CacheState.init
      = get_recommendations_fast kernelZero "preek" [⟨some "E", some []⟩]
          (some modelConst) 5 CacheState.init
    ∧ get_recommendations_fast kernelZero "preek" corpusAB none 5 CacheState.init
      = ([], CacheState.init, ⟨0, 0⟩) :=
  ⟨rfl, rfl⟩

/-- Claim C8 (amended): `get_recommendations_fast` itself returns a plain
empty result both when the model is unavailable and when the corpus has no
embeddable text; the two situations are told apart only one level up: `main`
reports a load error and never reaches the recommendation call when the model
failed to load, while the empty-corpus case reaches it and yields the empty
sequence without an error condition. -/
theorem c8_distinguish_amended :
    (∀ (cos : List ℚ → List ℚ → ℚ) (q : String) (songs : List SongRecord)
        (k : ℤ) (c : CacheState),
      get_recommendations_fast cos q songs none k c = ([], c, ⟨0, 0⟩))
    ∧ (∀ (cos : List ℚ → List ℚ → ℚ) (q : String) (songs : List SongRecord)
        (m : Model) (k : ℤ) (c : CacheState),
        (preprocess_songs songs).1 = [] →
        get_recommendations_fast cos q songs (some m) k c = ([], c, ⟨0, 0⟩))
    ∧ (∀ (cos : List ℚ → List ℚ → ℚ) (songs : List SongRecord) (q : String)
        (k : ℤ) (c : CacheState),
        main_flow cos songs none q k c = (.loadError, c, ⟨0, 0⟩)) := by
  refine ⟨fun cos q songs k c => rfl, ?_, fun cos songs q k c => rfl⟩
  intro cos q songs m k c hpre
  unfold get_recommendations_fast
  by_cases hs : songs.isEmpty
  · simp [hs]
  · simp [hs, hpre]

/-- Witness for the amended C8: a one-record corpus whose record has empty
lyrics satisfies the no-embeddable-text hypothesis and yields the plain empty
result. -/
theorem c8_distinguish_amended_witness :
    (preprocess_songs [(⟨some "E", some []⟩ : SongRecord)]).1 = []
    ∧ get_recommendations_fast kernelZero "preek" [⟨some "E", some []⟩]
        (some modelConst) 5 CacheState.init = ([], CacheState.init, ⟨0, 0⟩) :=
  ⟨by decide,
    c8_distinguish_amended.2.1 kernelZero "preek" [⟨some "E", some []⟩]
      modelConst 5 CacheState.init (by decide)⟩

/-! ## Claim C9 -/

theorem get_song_embeddings_batch_le (texts : List String) (m : Option Model)
    (c : CacheState) : (get_song_embeddings texts m c).2.2 ≤ 1 := by
  unfold get_song_embeddings
  cases hl : c.entries.lookup texts with
  | some v => simp [hl]
  | none =>
    cases m with
    | none => simp [hl]
    | some model => by_cases ht : texts.isEmpty <;> simp [hl, ht]

/-- Rerunning the memoized embedding lookup on the cache produced by a first
run is a hit: no provider call happens. -/
theorem get_song_embeddings_rerun (texts : List String) (m : Option Model)
    (c : CacheState) :
    (get_song_embeddings texts m ((get_song_embeddings texts m c).2.1)).2.2 = 0 := by
  unfold get_song_embeddings
  cases hl : c.entries.lookup texts with
  | some v => simp [hl]
  | none =>
    cases m with
    | none => simp [hl, List.lookup]
    | some model =>
      by_cases ht : texts.isEmpty <;> simp [hl, ht, List.lookup]

/-- On the main path the returned cache and batch count of the recommendation
call are those of its embedding lookup. -/
theorem get_rec_main_path (cos : List ℚ → List ℚ → ℚ) (q : String)
    (songs : List SongRecord) (model : Model) (k : ℤ) (c : CacheState)
    (hs : songs.isEmpty = false)
    (hp : (preprocess_songs songs).1.isEmpty = false) :
    (get_recommendations_fast cos q songs (some model) k c).2.1
      = (get_song_embeddings (preprocess_songs songs).1 (some model) c).2.1
    ∧ (get_recommendations_fast cos q songs (some model) k c).2.2.batch
      = (get_song_embeddings (preprocess_songs songs).1 (some model) c).2.2 := by
  unfold get_recommendations_fast
  rcases hge : get_song_embeddings (preprocess_songs songs).1 (some model) c
    with ⟨v, c1, nb⟩
  cases v <;> simp [hs, hp, hge]

/-- Claim C9: within one cache lifetime, one recommendation call performs at
most one corpus batch-embed, and a second call against the same corpus
(starting from the cache the first call returned) performs none: the second
call is a cache hit on the corpus embeddings. -/
theorem c9_batch_at_most_once (cos : List ℚ → List ℚ → ℚ) (q : String)
    (songs : List SongRecord) (m : Option Model) (k : ℤ) (c0 : CacheState) :
    ((get_recommendations_fast cos q songs m k c0).2.2).batch ≤ 1
    ∧ ((get_recommendations_fast cos q songs m k
        ((get_recommendations_fast cos q songs m k c0).2.1)).2.2).batch = 0 := by
  cases m with
  | none => exact ⟨by simp [get_recommendations_fast], by simp [get_recommendations_fast]⟩
  | some model =>
    by_cases hs : songs.isEmpty
    · constructor <;> simp [get_recommendations_fast, hs]
    · by_cases hp : (preprocess_songs songs).1.isEmpty
      · constructor <;> simp [get_recommendations_fast, hs, hp]
      · have hs' : songs.isEmpty = false := by simpa using hs
        have hp' : (preprocess_songs songs).1.isEmpty = false := by simpa using hp
        have h1 := get_rec_main_path cos q songs model k c0 hs' hp'
        have h2 := get_rec_main_path cos q songs model k
          ((get_recommendations_fast cos q songs (some model) k c0).2.1) hs' hp'
        constructor
        · rw [h1.2]
          exact get_song_embeddings_batch_le _ _ _
        · rw [h2.2, h1.1]
          exact get_song_embeddings_rerun _ _ _

/-! ## Claim C4 -/

theorem dotR_self_nonneg (u : List ℝ) : 0 ≤ dotR u u := by
  induction u with
  | nil => simp [dotR]
  | cons a u ih =>
    have hd : dotR (a :: u) (a :: u) = a * a + dotR u u := rfl
    rw [hd]
    nlinarith [mul_self_nonneg a]

theorem dotR_self_eq_zero {u : List ℝ} (h : dotR u u = 0) : ∀ x ∈ u, x = 0 := by
  induction u with
  | nil => simp
  | cons a u ih =>
    have hd : dotR (a :: u) (a :: u) = a * a + dotR u u := rfl
    rw [hd] at h
    have h1 : a * a = 0 := by
      nlinarith [mul_self_nonneg a, dotR_self_nonneg u]
    have h2 : dotR u u = 0 := by
      nlinarith [mul_self_nonneg a, dotR_self_nonneg u]
    intro x hx
    rcases List.mem_cons.mp hx with rfl | hx2
    · exact mul_self_eq_zero.mp h1
    · exact ih h2 x hx2

theorem dotR_eq_zero_left {u : List ℝ} (h : ∀ x ∈ u, x = 0) (v : List ℝ) :
    dotR u v = 0 := by
  induction u generalizing v with
  | nil => simp [dotR]
  | cons a u ih =>
    cases v with
    | nil => simp [dotR]
    | cons b v =>
      have hd : dotR (a :: u) (b :: v) = a * b + dotR u v := rfl
      rw [hd, h a (List.mem_cons_self a u),
        ih (fun x hx => h x (List.mem_cons_of_mem a hx)) v]
      simp

theorem dotR_eq_zero_right {v : List ℝ} (h : ∀ x ∈ v, x = 0) (u : List ℝ) :
    dotR u v = 0 := by
  induction v generalizing u with
  | nil => cases u <;> simp [dotR]
  | cons b v ih =>
    cases u with
    | nil => simp [dotR]
    | cons a u =>
      have hd : dotR (a :: u) (b :: v) = a * b + dotR u v := rfl
      rw [hd, h b (List.mem_cons_self b v),
        ih (fun x hx => h x (List.mem_cons_of_mem b hx)) u]
      simp

theorem sknorm_eq_zero_imp {u : List ℝ} (h : sknorm u = 0) : ∀ x ∈ u, x = 0 := by
  unfold sknorm at h
  have h2 : dotR u u ≤ 0 := Real.sqrt_eq_zero'.mp h
  exact dotR_self_eq_zero (le_antisymm h2 (dotR_self_nonneg u))

/-- Claim C4 as stated is false: the zero vector has zero norm, and the sklearn
cosine similarity against it is 0 rather than the claimed minimum -1 (the
function is total, so nothing raises, but the degenerate score is 0). -/
theorem c4_counterexample :
    sknorm [(0 : ℝ)] = 0
    ∧ cosine_similarity_pair [(0 : ℝ)] [(1 : ℝ)] = 0
    ∧ cosine_similarity_pair [(0 : ℝ)] [(1 : ℝ)] ≠ -1 := by
  have h1 : sknorm [(0 : ℝ)] = 0 := by
    unfold sknorm dotR
    simp
  have h2 : cosine_similarity_pair [(0 : ℝ)] [(1 : ℝ)] = 0 := by
    unfold cosine_similarity_pair dotR
    simp
  refine ⟨h1, h2, ?_⟩
  rw [h2]
  norm_num

/-- Claim C4 (amended): ranking never raises on a zero-norm vector (the
modelled sklearn kernel is total: the zero norm is replaced by 1 before
division), and the score of the affected entry is 0, not -1. -/
theorem c4_zero_norm_amended (u v : List ℝ)
    (h : sknorm u = 0 ∨ sknorm v = 0) :
    cosine_similarity_pair u v = 0 := by
  unfold cosine_similarity_pair
  rcases h with h | h
  · rw [dotR_eq_zero_left (sknorm_eq_zero_imp h) v, zero_div]
  · rw [dotR_eq_zero_right (sknorm_eq_zero_imp h) u, zero_div]

/-- Witness for the amended C4 at the two-dimensional zero vector. -/
theorem c4_zero_norm_amended_witness :
    (sknorm [(0 : ℝ), 0] = 0 ∨ sknorm [(1 : ℝ), 2] = 0)
    ∧ cosine_similarity_pair [(0 : ℝ), 0] [(1 : ℝ), 2] = 0 :=
  ⟨Or.inl (by unfold sknorm dotR; simp),
    c4_zero_norm_amended _ _ (Or.inl (by unfold sknorm dotR; simp))⟩

/-- Witness for C10: a record with no lyrics key is excluded; a surviving
record with no filename key is named "Unknown" in the prepared names; a
concrete returned recommendation carries one of the prepared names. -/
theorem c10_missing_keys_witness :
    keepSong ⟨some "A", none⟩ = false
    ∧ (((survivors [(⟨none, some ["x"]⟩ : SongRecord)]).getD 0 default).filename = none
        ∧ (preprocess_songs [(⟨none, some ["x"]⟩ : SongRecord)]).2.getD 0 "" = "Unknown")
    ∧ "B" ∈ (preprocess_songs corpusAB).2 := by
  refine ⟨c10_missing_keys.1 _ rfl, ⟨by decide, ?_⟩, ?_⟩
  · exact c10_missing_keys.2.1 [(⟨none, some ["x"]⟩ : SongRecord)] 0
      (by decide) (by decide)
  · exact c10_missing_keys.2.2 kernelZero "preek" corpusAB modelConst 5
      { filename := "B", lyrics := ["y"], score := roundTo3 0 }
      (List.Mem.head _)
